import Mathlib

/-!
Shallow embedding of src/pkg/commands/compute/setup/secret_store.go: the
SecretStores provisioner (Predefined, Configure, Create) used by the compute
setup orchestration.  Go maps are embedded as association lists recording the
iteration order the runtime chose; the prompt reader and the remote API client
are embedded as oracles; the observable effects of Create (progress steps and
remote calls) are collected in a trace.
-/

/-- Modelled from the spec: the manifest type for one secret store entry
(manifest.SetupSecretStore items) is not under src.  Per the spec data model an
entry record carries an optional description and an optional literal value. -/
structure SetupSecretStoreItem where
  description : String
  value : Option String
deriving DecidableEq, Repr

/-- Modelled from the spec: the manifest type manifest.SetupSecretStore is not
under src.  A declared resource has an optional description and a mapping from
entry key to entry record; the Go field is a map, embedded here as the list of
its key and value pairs in the iteration order the runtime chose. -/
structure SetupSecretStore where
  description : String
  items : List (String × SetupSecretStoreItem)
deriving DecidableEq, Repr

/-- SecretStoreItem (secret_store.go lines 44 to 47). -/
structure SecretStoreItem where
  name : String
  secret : String
deriving DecidableEq, Repr

/-- SecretStore (secret_store.go lines 37 to 40). -/
structure SecretStore where
  name : String
  items : List SecretStoreItem
deriving DecidableEq, Repr

/-- The fields of the fastly.SecretStore value returned by the create secret
store call that Create reads: ID (lines 132, 149) and Name (lines 148, 153). -/
structure SecretStoreMeta where
  ID : String
  Name : String
deriving DecidableEq, Repr

/-- Oracle for the three remote operations of api.Interface that Create uses
(lines 120, 131, 145).  The results of CreateSecret and CreateResource are
discarded by the source, so their success values are modelled as Unit. -/
structure ApiOracle where
  CreateSecretStore : String → Except String SecretStoreMeta
  CreateSecret : String → String → String → Except String Unit
  CreateResource : String → Int → String → String → Except String Unit

/-- Errors Configure can return (secret_store.go lines 88 and 93). -/
inductive ConfigError where
  | blankValue
  | promptRead (inner : String)
deriving DecidableEq, Repr

/-- Rendered message of a ConfigError, as produced by errors.New (line 93) and
fmt.Errorf (line 88) in the source. -/
def ConfigError.message : ConfigError → String
  | .blankValue => "value cannot be blank"
  | .promptRead inner => "error reading prompt input: " ++ inner

/-- Modelled from the spec: fsterrors.BugRemediation is not under src; it is
the remediation hint that marks bug class (programming contract) errors as
distinct from user facing errors. -/
def BugRemediation : String :=
  "this is a bug with the CLI, please file an issue"

/-- Errors Create can return: a RemediationError (lines 111 to 114) or an error
wrapped by fmt.Errorf with a context string (lines 125, 138, 153). -/
inductive CreateError where
  | remediation (inner : String) (hint : String)
  | wrapped (ctx : String) (inner : String)
deriving DecidableEq, Repr

/-- One observable effect of Create: a progress step (Progress.Step), a
progress failure (Progress.Fail), or one of the three remote calls with the
arguments the source passes. -/
inductive Event where
  | step (msg : String)
  | failStep
  | callCreateStore (name : String)
  | callCreateSecret (storeID : String) (name : String) (secret : String)
  | callCreateLink (serviceID : String) (serviceVersion : Int) (name : String) (resourceID : String)
deriving DecidableEq, Repr

/-- The SecretStores receiver (secret_store.go lines 19 to 33).  Stdin is the
prompt oracle giving the result of the n-th text.InputSecure read; Progress is
modelled by whether a sink is attached. -/
structure SecretStores where
  acceptDefaults : Bool
  nonInteractive : Bool
  progress : Option Unit
  serviceID : String
  serviceVersion : Int
  setup : List (String × SetupSecretStore)
  stdin : Nat → Except String String
  apiClient : ApiOracle
  required : List SecretStore

/-- The prompting condition of Configure (lines 58 and 77). -/
def SecretStores.interactive (s : SecretStores) : Bool :=
  !s.acceptDefaults && !s.nonInteractive

/-- Predefined (secret_store.go lines 51 to 53). -/
def SecretStores.Predefined (s : SecretStores) : Bool :=
  decide (0 < s.setup.length)

/-- The inner loop of Configure over the entries of one declared resource
(secret_store.go lines 71 to 100).  Returns the keys prompted for, the
SecretStoreItem list built, and the outcome.  In non interactive or accept
defaults mode the value variable is never assigned, so it keeps the zero value
of a Go string, the empty string, and the blank check at line 92 fails. -/
def configureItems (stdin : Nat → Except String String) (interactive : Bool) :
    List (String × SetupSecretStoreItem) → Nat →
    List String × List SecretStoreItem × Except ConfigError Unit
  | [], _ => ([], [], Except.ok ())
  | (key, _item) :: rest, k =>
    if interactive then
      match stdin k with
      | Except.error e => ([key], [], Except.error (ConfigError.promptRead e))
      | Except.ok value =>
        if value = "" then
          ([key], [], Except.error ConfigError.blankValue)
        else
          let out := configureItems stdin interactive rest (k + 1)
          (key :: out.1, SecretStoreItem.mk key value :: out.2.1, out.2.2)
    else
      ([], [], Except.error ConfigError.blankValue)

/-- The outer loop of Configure over the declared resources, in the iteration
order recorded in the setup list (secret_store.go lines 57 to 103).  A store is
appended to the result only once all its entries resolved (line 102). -/
def configureStores (stdin : Nat → Except String String) (interactive : Bool) :
    List (String × SetupSecretStore) → Nat →
    List String × List SecretStore × Except ConfigError Unit
  | [], _ => ([], [], Except.ok ())
  | (name, settings) :: rest, k =>
    match configureItems stdin interactive settings.items k with
    | (ps, _items, Except.error e) => (ps, [], Except.error e)
    | (ps, items, Except.ok ()) =>
      let out := configureStores stdin interactive rest (k + ps.length)
      (ps ++ out.1, SecretStore.mk name items :: out.2.1, out.2.2)

/-- Configure (secret_store.go lines 56 to 106): returns the keys prompted for,
the updated receiver (required is appended to, line 102), and the outcome. -/
def SecretStores.Configure (s : SecretStores) :
    List String × SecretStores × Except ConfigError Unit :=
  match configureStores s.stdin s.interactive s.setup 0 with
  | (ps, stores, r) => (ps, { s with required := s.required ++ stores }, r)

/-- The loop of Create over the entries of one secret store
(secret_store.go lines 128 to 140). -/
def createItems (api : ApiOracle) (storeID : String) :
    List SecretStoreItem → List Event × Except CreateError Unit
  | [] => ([], Except.ok ())
  | item :: rest =>
    let hd := [Event.step ("Creating secret store entry " ++ item.name ++ "..."),
               Event.callCreateSecret storeID item.name item.secret]
    match api.CreateSecret storeID item.name item.secret with
    | Except.error e =>
      (hd ++ [Event.failStep],
       Except.error (CreateError.wrapped "error creating secret store entry" e))
    | Except.ok _ =>
      let out := createItems api storeID rest
      (hd ++ out.1, out.2)

/-- The body of the Create loop for one secret store (secret_store.go lines
118 to 154): create the store, create its entries, then link it to the
service. -/
def createStore (api : ApiOracle) (serviceID : String) (serviceVersion : Int)
    (st : SecretStore) : List Event × Except CreateError Unit :=
  let hd := [Event.step ("Creating secret store " ++ st.name ++ "..."),
             Event.callCreateStore st.name]
  match api.CreateSecretStore st.name with
  | Except.error e =>
    (hd ++ [Event.failStep],
     Except.error (CreateError.wrapped "error creating secret store" e))
  | Except.ok meta =>
    match createItems api meta.ID st.items with
    | (tr, Except.error e) => (hd ++ tr, Except.error e)
    | (tr, Except.ok ()) =>
      let lk := [Event.step ("Creating resource link between service and secret store "
                   ++ st.name ++ "..."),
                 Event.callCreateLink serviceID serviceVersion meta.Name meta.ID]
      match api.CreateResource serviceID serviceVersion meta.Name meta.ID with
      | Except.error e =>
        (hd ++ tr ++ lk ++ [Event.failStep],
         Except.error (CreateError.wrapped
           ("error creating resource link between the service " ++ serviceID
             ++ " and the secret store " ++ meta.Name) e))
      | Except.ok _ => (hd ++ tr ++ lk, Except.ok ())

/-- The loop of Create over the required stores built by Configure
(secret_store.go lines 117 to 155). -/
def createStores (api : ApiOracle) (serviceID : String) (serviceVersion : Int) :
    List SecretStore → List Event × Except CreateError Unit
  | [] => ([], Except.ok ())
  | st :: rest =>
    match createStore api serviceID serviceVersion st with
    | (tr, Except.error e) => (tr, Except.error e)
    | (tr, Except.ok ()) =>
      let out := createStores api serviceID serviceVersion rest
      (tr ++ out.1, out.2)

/-- Create (secret_store.go lines 109 to 157): the nil Progress guard (lines
110 to 115) followed by the loop over the required stores. -/
def SecretStores.Create (s : SecretStores) : List Event × Except CreateError Unit :=
  match s.progress with
  | none =>
    ([], Except.error (CreateError.remediation
      "internal logic error: no text.Progress configured for setup.SecretStores"
      BugRemediation))
  | some _ => createStores s.apiClient s.serviceID s.serviceVersion s.required

/-- Whether an event is one of the three remote calls. -/
def isApiCall : Event → Bool
  | .callCreateStore _ => true
  | .callCreateSecret _ _ _ => true
  | .callCreateLink _ _ _ _ => true
  | _ => false

/-- Whether an event is the create secret store remote call. -/
def isStoreCreate : Event → Bool
  | .callCreateStore _ => true
  | _ => false

/-- The error of an oracle result, if any. -/
def errOf {α : Type} : Except String α → Option String
  | .error e => some e
  | .ok _ => none

/-- The oracle outcome of a remote call event: its error, or none when the
call succeeds or the event is not a remote call. -/
def callErr (api : ApiOracle) : Event → Option String
  | .callCreateStore n => errOf (api.CreateSecretStore n)
  | .callCreateSecret sid n v => errOf (api.CreateSecret sid n v)
  | .callCreateLink sid ver n rid => errOf (api.CreateResource sid ver n rid)
  | _ => none

/-- The context string fmt.Errorf wraps around a failing remote call
(secret_store.go lines 125, 138, 153). -/
def wrapCtx : Event → String
  | .callCreateStore _ => "error creating secret store"
  | .callCreateSecret _ _ _ => "error creating secret store entry"
  | .callCreateLink sid _ n _ =>
      "error creating resource link between the service " ++ sid
        ++ " and the secret store " ++ n
  | _ => ""

/-- Shape of a Create trace that aborted on a failing remote call: a prefix
whose remote calls all succeeded, then the failing call, then the progress
failure, and nothing after it; the returned error wraps the oracle error of
that failing call with the context of that operation. -/
def abortShape (api : ApiOracle) (tr : List Event) (e : CreateError) : Prop :=
  ∃ pre call inner, tr = pre ++ [call, Event.failStep] ∧ isApiCall call = true ∧
    callErr api call = some inner ∧
    e = CreateError.wrapped (wrapCtx call) inner ∧
    ∀ ev ∈ pre, callErr api ev = none

/-- The two events Create emits for one entry of a store. -/
def entryTrace (storeID : String) (it : SecretStoreItem) : List Event :=
  [Event.step ("Creating secret store entry " ++ it.name ++ "..."),
   Event.callCreateSecret storeID it.name it.secret]

/-- The events Create emits for the entries of a store, in order. -/
def entriesTrace (storeID : String) : List SecretStoreItem → List Event
  | [] => []
  | it :: rest => entryTrace storeID it ++ entriesTrace storeID rest

/-- The expected linear trace of one fully successful store creation: the
resource step and call, then every entry step and call in order, then the
linkage step and call. -/
def fullStoreTrace (api : ApiOracle) (serviceID : String) (serviceVersion : Int)
    (st : SecretStore) : List Event :=
  match api.CreateSecretStore st.name with
  | Except.error _ => []
  | Except.ok meta =>
    [Event.step ("Creating secret store " ++ st.name ++ "..."),
     Event.callCreateStore st.name]
      ++ entriesTrace meta.ID st.items
      ++ [Event.step ("Creating resource link between service and secret store "
            ++ st.name ++ "..."),
          Event.callCreateLink serviceID serviceVersion meta.Name meta.ID]

/-- The expected linear trace of a fully successful Create over a required
list, in list order. -/
def storesTrace (api : ApiOracle) (serviceID : String) (serviceVersion : Int) :
    List SecretStore → List Event
  | [] => []
  | st :: rest =>
    fullStoreTrace api serviceID serviceVersion st
      ++ storesTrace api serviceID serviceVersion rest

/-- Prompt oracle answering abc123 to the first prompt, end of stream after. -/
def ans0 : Nat → Except String String :=
  fun n => if n = 0 then Except.ok "abc123" else Except.error "eof"

/-- Prompt oracle whose stream is closed from the start. -/
def ansClosed : Nat → Except String String :=
  fun _ => Except.error "stream closed"

/-- Prompt oracle answering the empty string to every prompt. -/
def ansBlank : Nat → Except String String :=
  fun _ => Except.ok ""

/-- Remote client on which every call succeeds; the created store gets the
identifier id- followed by its name. -/
def okApi : ApiOracle where
  CreateSecretStore := fun n => Except.ok ⟨"id-" ++ n, n⟩
  CreateSecret := fun _ _ _ => Except.ok ()
  CreateResource := fun _ _ _ _ => Except.ok ()

/-- Remote client on which the create secret store call fails. -/
def badStoreApi : ApiOracle where
  CreateSecretStore := fun _ => Except.error "boom"
  CreateSecret := fun _ _ _ => Except.ok ()
  CreateResource := fun _ _ _ _ => Except.ok ()

/-- Interactive provisioner with one declared store holding one entry, the
scenario of the spec. -/
def sInteractive : SecretStores :=
  ⟨false, false, some (), "svc", 1,
   [("tokens", ⟨"", [("api-key", ⟨"", none⟩)]⟩)], ans0, okApi, []⟩

/-- Non interactive provisioner with one declared store holding one entry that
carries a configured literal value. -/
def sDefaulted : SecretStores :=
  ⟨false, true, some (), "svc", 1,
   [("tokens", ⟨"", [("api-key", ⟨"", some "s3cret"⟩)]⟩)], ansBlank, okApi, []⟩

/-- Non interactive provisioner declaring two stores with no entries, in one
map iteration order. -/
def sTwoAB : SecretStores :=
  ⟨false, true, some (), "svc", 1,
   [("alpha", ⟨"", []⟩), ("beta", ⟨"", []⟩)], ansBlank, okApi, []⟩

/-- The same provisioner as sTwoAB with the other iteration order of the same
two key and value pairs. -/
def sTwoBA : SecretStores :=
  ⟨false, true, some (), "svc", 1,
   [("beta", ⟨"", []⟩), ("alpha", ⟨"", []⟩)], ansBlank, okApi, []⟩

/-- The remote calls issued by running Configure and then Create from a given
starting state, as the orchestrator does. -/
def pipelineCalls (s : SecretStores) : List Event :=
  (SecretStores.Create (SecretStores.Configure s).2.1).1.filter isApiCall

/-- Non interactive provisioner with one declared store holding one entry and
no configured literal value. -/
def sNoDefault : SecretStores :=
  ⟨false, true, some (), "svc", 1,
   [("tokens", ⟨"", [("api-key", ⟨"", none⟩)]⟩)], ansBlank, okApi, []⟩

/-- Interactive provisioner whose prompt stream fails on the first read. -/
def sClosed : SecretStores :=
  ⟨false, false, some (), "svc", 1,
   [("tokens", ⟨"", [("api-key", ⟨"", none⟩)]⟩)], ansClosed, okApi, []⟩

lemma createItems_ok (api : ApiOracle) (storeID : String) :
    ∀ items : List SecretStoreItem,
      (createItems api storeID items).2 = Except.ok () →
      (createItems api storeID items).1 = entriesTrace storeID items ∧
        ∀ it ∈ items, api.CreateSecret storeID it.name it.secret = Except.ok ()
  | [] => by simp [createItems, entriesTrace]
  | it :: rest => by
    intro h
    cases hc : api.CreateSecret storeID it.name it.secret with
    | error e => simp [createItems, hc] at h
    | ok v =>
      simp only [createItems, hc] at h ⊢
      obtain ⟨htr, hall⟩ := createItems_ok api storeID rest h
      cases v
      refine ⟨by simp [entriesTrace, entryTrace, htr], ?_⟩
      intro it' hmem
      rcases List.mem_cons.mp hmem with rfl | hmem
      · exact hc
      · exact hall it' hmem

lemma entriesTrace_no_link (storeID : String) :
    ∀ (items : List SecretStoreItem) (sv : String) (vv : Int) (nm rid : String),
      Event.callCreateLink sv vv nm rid ∉ entriesTrace storeID items
  | [], _, _, _, _ => by simp [entriesTrace]
  | it :: rest, sv, vv, nm, rid => by
    simp [entriesTrace, entryTrace]
    exact entriesTrace_no_link storeID rest sv vv nm rid

lemma entriesTrace_mem (storeID : String) :
    ∀ items : List SecretStoreItem, ∀ it ∈ items,
      Event.callCreateSecret storeID it.name it.secret ∈ entriesTrace storeID items
  | it :: rest, it', hmem => by
    rcases List.mem_cons.mp hmem with rfl | hmem
    · simp [entriesTrace, entryTrace]
    · simp only [entriesTrace, entryTrace, List.mem_append]
      exact Or.inr (entriesTrace_mem storeID rest it' hmem)

lemma entriesTrace_clean (api : ApiOracle) (storeID : String) :
    ∀ items : List SecretStoreItem,
      (∀ it ∈ items, api.CreateSecret storeID it.name it.secret = Except.ok ()) →
      ∀ ev ∈ entriesTrace storeID items, callErr api ev = none
  | [], _, ev, hmem => by simp [entriesTrace] at hmem
  | it :: rest, hall, ev, hmem => by
    simp only [entriesTrace, entryTrace, List.mem_append, List.mem_cons,
      List.mem_singleton] at hmem
    rcases hmem with (rfl | rfl | h) | hmem
    · rfl
    · simp [callErr, hall it (List.mem_cons_self it rest), errOf]
    · simp at h
    · exact entriesTrace_clean api storeID rest
        (fun x hx => hall x (List.mem_cons_of_mem it hx)) ev hmem

lemma createItems_err (api : ApiOracle) (storeID : String) :
    ∀ (items : List SecretStoreItem) (e : CreateError),
      (createItems api storeID items).2 = Except.error e →
      abortShape api (createItems api storeID items).1 e
  | [], e => by simp [createItems]
  | it :: rest, e => by
    intro h
    cases hc : api.CreateSecret storeID it.name it.secret with
    | error err =>
      simp only [createItems, hc] at h ⊢
      refine ⟨[Event.step ("Creating secret store entry " ++ it.name ++ "...")],
        Event.callCreateSecret storeID it.name it.secret, err, by simp, rfl,
        by simp [callErr, hc, errOf], ?_, ?_⟩
      · cases h; rfl
      · intro ev hmem
        simp only [List.mem_singleton] at hmem
        subst hmem; rfl
    | ok v =>
      simp only [createItems, hc] at h ⊢
      obtain ⟨pre, call, inner, htr, hcall, herr, he, hclean⟩ :=
        createItems_err api storeID rest e h
      refine ⟨[Event.step ("Creating secret store entry " ++ it.name ++ "..."),
        Event.callCreateSecret storeID it.name it.secret] ++ pre, call, inner,
        by simp [htr], hcall, herr, he, ?_⟩
      intro ev hmem
      simp only [List.cons_append, List.nil_append, List.mem_cons] at hmem
      rcases hmem with rfl | rfl | hmem
      · rfl
      · simp [callErr, hc, errOf]
      · exact hclean ev hmem

lemma createItems_no_link (api : ApiOracle) (storeID : String) :
    ∀ (items : List SecretStoreItem) (sv : String) (vv : Int) (nm rid : String),
      Event.callCreateLink sv vv nm rid ∉ (createItems api storeID items).1
  | [], _, _, _, _ => by simp [createItems]
  | it :: rest, sv, vv, nm, rid => by
    cases hc : api.CreateSecret storeID it.name it.secret with
    | error err => simp [createItems, hc]
    | ok v =>
      simp [createItems, hc]
      exact createItems_no_link api storeID rest sv vv nm rid

lemma append_cons_eq_of_not_mem {α : Type} :
    ∀ {A : List α} {B pre suf : List α} {x y : α},
      A ++ x :: B = pre ++ y :: suf → y ∉ A → y ∉ B →
      pre = A ∧ y = x ∧ suf = B
  | [], B, pre, suf, x, y => by
    intro h hA hB
    cases pre with
    | nil =>
      simp only [List.nil_append] at h ⊢
      injection h with h1 h2
      exact ⟨trivial, h1.symm, h2.symm⟩
    | cons p pre' =>
      simp only [List.nil_append, List.cons_append, List.cons.injEq] at h
      exact absurd (h.2 ▸ List.mem_append_right pre' (List.mem_cons_self y suf)) hB
  | a :: A', B, pre, suf, x, y => by
    intro h hA hB
    cases pre with
    | nil =>
      simp only [List.cons_append, List.nil_append, List.cons.injEq] at h
      exact absurd (h.1 ▸ List.mem_cons_self a A') hA
    | cons p pre' =>
      simp only [List.cons_append, List.cons.injEq] at h
      obtain ⟨h1, h2, h3⟩ :=
        append_cons_eq_of_not_mem h.2 (fun hx => hA (List.mem_cons_of_mem a hx)) hB
      exact ⟨by rw [h1, h.1], h2, h3⟩

lemma createStore_ok (api : ApiOracle) (sid : String) (ver : Int) (st : SecretStore)
    (h : (createStore api sid ver st).2 = Except.ok ()) :
    (createStore api sid ver st).1 = fullStoreTrace api sid ver st ∧
      ∀ ev ∈ (createStore api sid ver st).1, callErr api ev = none := by
  cases hs : api.CreateSecretStore st.name with
  | error e => simp [createStore, hs] at h
  | ok meta =>
    cases hi : createItems api meta.ID st.items with
    | mk tri ri =>
      cases ri with
      | error e => simp [createStore, hs, hi] at h
      | ok u =>
        cases u
        have hitems := createItems_ok api meta.ID st.items (by rw [hi])
        obtain ⟨htr, hall⟩ := hitems
        rw [hi] at htr
        simp only at htr
        cases hr : api.CreateResource sid ver meta.Name meta.ID with
        | error e => simp [createStore, hs, hi, hr] at h
        | ok v =>
          constructor
          · simp [createStore, hs, hi, hr, fullStoreTrace, htr]
          · intro ev hmem
            simp only [createStore, hs, hi, hr, List.cons_append, List.nil_append,
              List.mem_cons, List.mem_append] at hmem
            rcases hmem with rfl | hmem
            · rfl
            rcases hmem with rfl | hmem
            · simp [callErr, hs, errOf]
            rcases hmem with hmem | hmem
            · exact entriesTrace_clean api meta.ID st.items hall ev (htr ▸ hmem)
            rcases hmem with rfl | hmem
            · rfl
            rcases hmem with rfl | hmem
            · simp [callErr, hr, errOf]
            · simp at hmem

lemma createStore_err (api : ApiOracle) (sid : String) (ver : Int) (st : SecretStore)
    (e : CreateError) (h : (createStore api sid ver st).2 = Except.error e) :
    abortShape api (createStore api sid ver st).1 e := by
  cases hs : api.CreateSecretStore st.name with
  | error err =>
    simp only [createStore, hs] at h ⊢
    refine ⟨[Event.step ("Creating secret store " ++ st.name ++ "...")],
      Event.callCreateStore st.name, err, by simp, rfl,
      by simp [callErr, hs, errOf], ?_, ?_⟩
    · cases h; rfl
    · intro ev hmem
      simp only [List.mem_singleton] at hmem
      subst hmem; rfl
  | ok meta =>
    cases hi : createItems api meta.ID st.items with
    | mk tri ri =>
      cases ri with
      | error e2 =>
        simp only [createStore, hs, hi] at h ⊢
        obtain ⟨pre, call, inner, htr, hcall, herr, he, hclean⟩ :=
          createItems_err api meta.ID st.items e2 (by rw [hi])
        rw [hi] at htr
        simp only at htr
        cases h
        refine ⟨[Event.step ("Creating secret store " ++ st.name ++ "..."),
          Event.callCreateStore st.name] ++ pre, call, inner,
          by simp [htr], hcall, herr, he, ?_⟩
        intro ev hmem
        simp only [List.cons_append, List.nil_append, List.mem_cons] at hmem
        rcases hmem with rfl | rfl | hmem
        · rfl
        · simp [callErr, hs, errOf]
        · exact hclean ev hmem
      | ok u =>
        cases u
        obtain ⟨htr, hall⟩ := createItems_ok api meta.ID st.items (by rw [hi])
        rw [hi] at htr
        simp only at htr
        cases hr : api.CreateResource sid ver meta.Name meta.ID with
        | error err =>
          simp only [createStore, hs, hi, hr] at h ⊢
          cases h
          refine ⟨[Event.step ("Creating secret store " ++ st.name ++ "..."),
            Event.callCreateStore st.name] ++ tri
              ++ [Event.step ("Creating resource link between service and secret store "
                    ++ st.name ++ "...")],
            Event.callCreateLink sid ver meta.Name meta.ID, err,
            by simp, rfl, by simp [callErr, hr, errOf], by simp [wrapCtx], ?_⟩
          intro ev hmem
          simp only [List.cons_append, List.nil_append, List.mem_cons,
            List.mem_append, List.mem_singleton] at hmem
          rcases hmem with rfl | rfl | hmem
          · rfl
          · simp [callErr, hs, errOf]
          rcases hmem with hmem | hmem
          · exact entriesTrace_clean api meta.ID st.items hall ev (htr ▸ hmem)
          rcases hmem with rfl | hmem
          · rfl
          · simp at hmem
        | ok v => simp [createStore, hs, hi, hr] at h

lemma createStore_split (api : ApiOracle) (sid : String) (ver : Int) (st : SecretStore)
    (pre suf : List Event) (sv : String) (vv : Int) (nm rid : String)
    (h : (createStore api sid ver st).1 = pre ++ Event.callCreateLink sv vv nm rid :: suf) :
    sv = sid ∧ vv = ver ∧ api.CreateSecretStore st.name = Except.ok ⟨rid, nm⟩ ∧
    Event.callCreateStore st.name ∈ pre ∧
    ∀ it ∈ st.items, Event.callCreateSecret rid it.name it.secret ∈ pre ∧
      api.CreateSecret rid it.name it.secret = Except.ok () := by
  have hlink : Event.callCreateLink sv vv nm rid ∈ (createStore api sid ver st).1 := by
    rw [h]; exact List.mem_append_right pre (List.mem_cons_self _ _)
  cases hs : api.CreateSecretStore st.name with
  | error err => simp [createStore, hs] at hlink
  | ok meta =>
    cases meta with
    | mk mid mname =>
      cases hi : createItems api mid st.items with
      | mk tri ri =>
        have hnl := createItems_no_link api mid st.items sv vv nm rid
        rw [hi] at hnl
        simp only at hnl
        cases ri with
        | error e2 =>
          simp only [createStore, hs, hi, List.cons_append, List.nil_append,
            List.mem_cons] at hlink
          rcases hlink with h1 | h1 | h1
          · exact absurd h1 (by simp)
          · exact absurd h1 (by simp)
          · exact absurd h1 hnl
        | ok u =>
          cases u
          obtain ⟨htr, hall⟩ := createItems_ok api mid st.items (by rw [hi])
          rw [hi] at htr
          simp only at htr
          have hA : Event.callCreateLink sv vv nm rid ∉
              [Event.step ("Creating secret store " ++ st.name ++ "..."),
               Event.callCreateStore st.name] ++ tri
                ++ [Event.step ("Creating resource link between service and secret store "
                      ++ st.name ++ "...")] := by
            intro hmem
            simp only [List.cons_append, List.nil_append, List.mem_cons,
              List.mem_append, List.mem_singleton] at hmem
            rcases hmem with h1 | h1 | h1
            · exact absurd h1 (by simp)
            · exact absurd h1 (by simp)
            rcases h1 with h1 | h1
            · exact absurd h1 hnl
            · exact absurd h1 (by simp)
          cases hr : api.CreateResource sid ver mname mid with
          | ok v =>
            have e1 : (createStore api sid ver st).1 =
                ([Event.step ("Creating secret store " ++ st.name ++ "..."),
                  Event.callCreateStore st.name] ++ tri
                  ++ [Event.step ("Creating resource link between service and secret store "
                        ++ st.name ++ "...")])
                  ++ Event.callCreateLink sid ver mname mid :: ([] : List Event) := by
              simp only [createStore, hs, hi, hr]
              simp
            obtain ⟨hpre, hy, hsuf⟩ :=
              append_cons_eq_of_not_mem (e1.symm.trans h) hA (by simp)
            injection hy with y1 y2 y3 y4
            subst y1; subst y2; subst y3; subst y4; subst hpre
            refine ⟨rfl, rfl, rfl, by simp, ?_⟩
            intro it hit
            refine ⟨?_, hall it hit⟩
            exact List.mem_append_left _
              (List.mem_append_right _ (htr ▸ entriesTrace_mem rid st.items it hit))
          | error err =>
            have e1 : (createStore api sid ver st).1 =
                ([Event.step ("Creating secret store " ++ st.name ++ "..."),
                  Event.callCreateStore st.name] ++ tri
                  ++ [Event.step ("Creating resource link between service and secret store "
                        ++ st.name ++ "...")])
                  ++ Event.callCreateLink sid ver mname mid :: [Event.failStep] := by
              simp only [createStore, hs, hi, hr]
              simp
            obtain ⟨hpre, hy, hsuf⟩ :=
              append_cons_eq_of_not_mem (e1.symm.trans h) hA (by simp)
            injection hy with y1 y2 y3 y4
            subst y1; subst y2; subst y3; subst y4; subst hpre
            refine ⟨rfl, rfl, rfl, by simp, ?_⟩
            intro it hit
            refine ⟨?_, hall it hit⟩
            exact List.mem_append_left _
              (List.mem_append_right _ (htr ▸ entriesTrace_mem rid st.items it hit))

lemma createStores_ok (api : ApiOracle) (sid : String) (ver : Int) :
    ∀ req : List SecretStore,
      (createStores api sid ver req).2 = Except.ok () →
      (createStores api sid ver req).1 = storesTrace api sid ver req ∧
        ∀ ev ∈ (createStores api sid ver req).1, callErr api ev = none
  | [] => by simp [createStores, storesTrace]
  | st :: rest => by
    intro h
    cases hc : createStore api sid ver st with
    | mk tr1 r1 =>
      cases r1 with
      | error e => simp [createStores, hc] at h
      | ok u =>
        cases u
        obtain ⟨htr1, hclean1⟩ := createStore_ok api sid ver st (by rw [hc])
        rw [hc] at htr1 hclean1
        simp only at htr1 hclean1
        simp only [createStores, hc] at h ⊢
        obtain ⟨htr2, hclean2⟩ := createStores_ok api sid ver rest h
        constructor
        · simp [storesTrace, htr1, htr2]
        · intro ev hmem
          rcases List.mem_append.mp hmem with hmem | hmem
          · exact hclean1 ev hmem
          · exact hclean2 ev hmem

lemma createStores_err (api : ApiOracle) (sid : String) (ver : Int) :
    ∀ (req : List SecretStore) (e : CreateError),
      (createStores api sid ver req).2 = Except.error e →
      abortShape api (createStores api sid ver req).1 e
  | [], e => by simp [createStores]
  | st :: rest, e => by
    intro h
    cases hc : createStore api sid ver st with
    | mk tr1 r1 =>
      cases r1 with
      | error e1 =>
        simp only [createStores, hc] at h ⊢
        cases h
        have habort := createStore_err api sid ver st e (by rw [hc])
        rw [hc] at habort
        exact habort
      | ok u =>
        cases u
        obtain ⟨htr1, hclean1⟩ := createStore_ok api sid ver st (by rw [hc])
        rw [hc] at htr1 hclean1
        simp only at htr1 hclean1
        simp only [createStores, hc] at h ⊢
        obtain ⟨pre, call, inner, htr, hcall, herr, he, hclean⟩ :=
          createStores_err api sid ver rest e h
        refine ⟨tr1 ++ pre, call, inner, by simp [htr], hcall, herr, he, ?_⟩
        intro ev hmem
        rcases List.mem_append.mp hmem with hmem | hmem
        · exact hclean1 ev hmem
        · exact hclean ev hmem

lemma createStores_split (api : ApiOracle) (sid : String) (ver : Int) :
    ∀ (req : List SecretStore) (pre suf : List Event) (sv : String) (vv : Int)
      (nm rid : String),
      (createStores api sid ver req).1 = pre ++ Event.callCreateLink sv vv nm rid :: suf →
      ∃ st, st ∈ req ∧ sv = sid ∧ vv = ver ∧
        api.CreateSecretStore st.name = Except.ok ⟨rid, nm⟩ ∧
        Event.callCreateStore st.name ∈ pre ∧
        ∀ it ∈ st.items, Event.callCreateSecret rid it.name it.secret ∈ pre ∧
          api.CreateSecret rid it.name it.secret = Except.ok ()
  | [], pre, suf, sv, vv, nm, rid => by
    intro h
    simp only [createStores] at h
    exact absurd h.symm (List.append_ne_nil_of_right_ne_nil pre (by simp))
  | st :: rest, pre, suf, sv, vv, nm, rid => by
    intro h
    cases hc : createStore api sid ver st with
    | mk tr1 r1 =>
      cases r1 with
      | error e1 =>
        simp only [createStores, hc] at h
        obtain ⟨h1, h2, h3, h4, h5⟩ := createStore_split api sid ver st pre suf sv vv nm rid
          (by rw [hc]; exact h)
        exact ⟨st, List.mem_cons_self st rest, h1, h2, h3, h4, h5⟩
      | ok u =>
        cases u
        simp only [createStores, hc] at h
        rcases List.append_eq_append_iff.mp h with ⟨m, hm1, hm2⟩ | ⟨m, hm1, hm2⟩
        · -- the split point is inside the trace of the remaining stores
          obtain ⟨st', hst', h1, h2, h3, h4, h5⟩ :=
            createStores_split api sid ver rest m suf sv vv nm rid hm2
          refine ⟨st', List.mem_cons_of_mem st hst', h1, h2, h3, ?_, ?_⟩
          · rw [hm1]; exact List.mem_append_right tr1 h4
          · intro it hit
            refine ⟨?_, (h5 it hit).2⟩
            rw [hm1]; exact List.mem_append_right tr1 (h5 it hit).1
        · -- the split point is inside the trace of the head store
          cases m with
          | nil =>
            rw [List.append_nil] at hm1
            simp only [List.nil_append] at hm2
            obtain ⟨st', hst', h1, h2, h3, h4, h5⟩ :=
              createStores_split api sid ver rest [] suf sv vv nm rid hm2.symm
            exact absurd h4 (by simp)
          | cons mh m' =>
            rw [List.cons_append] at hm2
            injection hm2 with i1 i2
            obtain ⟨h1, h2, h3, h4, h5⟩ := createStore_split api sid ver st pre m' sv vv nm rid
              (by rw [hc]; rw [hm1, ← i1])
            exact ⟨st, List.mem_cons_self st rest, h1, h2, h3, h4, h5⟩

lemma prefix_of_eq_append_cons {α : Type} {A B pre suf : List α} {x : α}
    (h : A ++ B = pre ++ x :: suf) (hx : x ∉ A) : ∃ m, pre = A ++ m := by
  rcases List.append_eq_append_iff.mp h with ⟨m, hm1, hm2⟩ | ⟨m, hm1, hm2⟩
  · exact ⟨m, hm1⟩
  · cases m with
    | nil =>
      rw [List.append_nil] at hm1
      exact ⟨[], by rw [List.append_nil]; exact hm1.symm⟩
    | cons mh m' =>
      rw [List.cons_append] at hm2
      injection hm2 with i1 i2
      exfalso
      apply hx
      rw [hm1]
      refine List.mem_append_right pre ?_
      rw [i1]
      exact List.mem_cons_self mh m'

lemma createItems_secret_id (api : ApiOracle) (storeID : String) :
    ∀ (items : List SecretStoreItem) (a n v : String),
      Event.callCreateSecret a n v ∈ (createItems api storeID items).1 → a = storeID
  | [], a, n, v => by simp [createItems]
  | it :: rest, a, n, v => by
    intro hmem
    cases hc : api.CreateSecret storeID it.name it.secret with
    | error e =>
      simp only [createItems, hc, List.cons_append, List.nil_append,
        List.mem_cons] at hmem
      rcases hmem with h1 | h1 | h1
      · exact absurd h1 (by simp)
      · injection h1 with j1 j2 j3
      · simp at h1
    | ok u =>
      simp only [createItems, hc, List.cons_append, List.nil_append,
        List.mem_cons] at hmem
      rcases hmem with h1 | h1 | h1
      · exact absurd h1 (by simp)
      · injection h1 with j1 j2 j3
      · exact createItems_secret_id api storeID rest a n v h1

lemma createStore_entry_split (api : ApiOracle) (sid : String) (ver : Int)
    (st : SecretStore) (pre suf : List Event) (a n v : String)
    (h : (createStore api sid ver st).1 = pre ++ Event.callCreateSecret a n v :: suf) :
    Event.callCreateStore st.name ∈ pre ∧
    ∃ meta, api.CreateSecretStore st.name = Except.ok meta ∧ a = meta.ID := by
  have hmem : Event.callCreateSecret a n v ∈ (createStore api sid ver st).1 := by
    rw [h]; exact List.mem_append_right pre (List.mem_cons_self _ _)
  cases hs : api.CreateSecretStore st.name with
  | error err => simp [createStore, hs] at hmem
  | ok meta =>
    cases hi : createItems api meta.ID st.items with
    | mk tri ri =>
      have hsec := createItems_secret_id api meta.ID st.items a n v
      rw [hi] at hsec
      simp only at hsec
      cases ri with
      | error e2 =>
        have hin : Event.callCreateSecret a n v ∈ tri := by
          simp [createStore, hs, hi] at hmem
          exact hmem
        have e1 : (createStore api sid ver st).1 =
            [Event.step ("Creating secret store " ++ st.name ++ "..."),
             Event.callCreateStore st.name] ++ tri := by
          simp [createStore, hs, hi]
        obtain ⟨m, hm⟩ := prefix_of_eq_append_cons (e1.symm.trans h) (by simp)
        exact ⟨by rw [hm]; simp, meta, rfl, hsec hin⟩
      | ok u =>
        cases u
        cases hr : api.CreateResource sid ver meta.Name meta.ID with
        | ok w =>
          have hin : Event.callCreateSecret a n v ∈ tri := by
            simp [createStore, hs, hi, hr] at hmem
            exact hmem
          have e1 : (createStore api sid ver st).1 =
              [Event.step ("Creating secret store " ++ st.name ++ "..."),
               Event.callCreateStore st.name]
                ++ (tri
                  ++ [Event.step ("Creating resource link between service and secret store "
                        ++ st.name ++ "..."),
                      Event.callCreateLink sid ver meta.Name meta.ID]) := by
            simp [createStore, hs, hi, hr]
          obtain ⟨m, hm⟩ := prefix_of_eq_append_cons (e1.symm.trans h) (by simp)
          exact ⟨by rw [hm]; simp, meta, rfl, hsec hin⟩
        | error err =>
          have hin : Event.callCreateSecret a n v ∈ tri := by
            simp [createStore, hs, hi, hr] at hmem
            exact hmem
          have e1 : (createStore api sid ver st).1 =
              [Event.step ("Creating secret store " ++ st.name ++ "..."),
               Event.callCreateStore st.name]
                ++ (tri
                  ++ [Event.step ("Creating resource link between service and secret store "
                        ++ st.name ++ "..."),
                      Event.callCreateLink sid ver meta.Name meta.ID,
                      Event.failStep]) := by
            simp [createStore, hs, hi, hr]
          obtain ⟨m, hm⟩ := prefix_of_eq_append_cons (e1.symm.trans h) (by simp)
          exact ⟨by rw [hm]; simp, meta, rfl, hsec hin⟩

lemma createStores_entry_split (api : ApiOracle) (sid : String) (ver : Int) :
    ∀ (req : List SecretStore) (pre suf : List Event) (a n v : String),
      (createStores api sid ver req).1 = pre ++ Event.callCreateSecret a n v :: suf →
      ∃ st, st ∈ req ∧ Event.callCreateStore st.name ∈ pre ∧
        ∃ meta, api.CreateSecretStore st.name = Except.ok meta ∧ a = meta.ID
  | [], pre, suf, a, n, v => by
    intro h
    simp only [createStores] at h
    exact absurd h.symm (List.append_ne_nil_of_right_ne_nil pre (by simp))
  | st :: rest, pre, suf, a, n, v => by
    intro h
    cases hc : createStore api sid ver st with
    | mk tr1 r1 =>
      cases r1 with
      | error e1 =>
        simp only [createStores, hc] at h
        obtain ⟨h1, h2⟩ := createStore_entry_split api sid ver st pre suf a n v
          (by rw [hc]; exact h)
        exact ⟨st, List.mem_cons_self st rest, h1, h2⟩
      | ok u =>
        cases u
        simp only [createStores, hc] at h
        rcases List.append_eq_append_iff.mp h with ⟨m, hm1, hm2⟩ | ⟨m, hm1, hm2⟩
        · obtain ⟨st', hst', h1, h2⟩ :=
            createStores_entry_split api sid ver rest m suf a n v hm2
          refine ⟨st', List.mem_cons_of_mem st hst', ?_, h2⟩
          rw [hm1]; exact List.mem_append_right tr1 h1
        · cases m with
          | nil =>
            rw [List.append_nil] at hm1
            simp only [List.nil_append] at hm2
            obtain ⟨st', hst', h1, h2⟩ :=
              createStores_entry_split api sid ver rest [] suf a n v hm2.symm
            exact absurd h1 (by simp)
          | cons mh m' =>
            rw [List.cons_append] at hm2
            injection hm2 with i1 i2
            obtain ⟨h1, h2⟩ := createStore_entry_split api sid ver st pre m' a n v
              (by rw [hc]; rw [hm1, ← i1])
            exact ⟨st, List.mem_cons_self st rest, h1, h2⟩

/-- Claim C2: within a single Create call, for every resource the create
resource remote call is issued before all of that resource's entry calls,
which are all issued before its single linkage call (on full success the trace
is exactly the linear per resource sequence), and a linkage call is never
issued unless every entry of its resource was created successfully and its
call already appears earlier in the trace. -/
theorem claim_C2_create_ordering :
    (∀ s : SecretStores, (SecretStores.Create s).2 = Except.ok () →
      (SecretStores.Create s).1 =
        storesTrace s.apiClient s.serviceID s.serviceVersion s.required)
  ∧ (∀ (s : SecretStores) (pre suf : List Event) (sv : String) (vv : Int)
        (nm rid : String),
      (SecretStores.Create s).1 = pre ++ Event.callCreateLink sv vv nm rid :: suf →
      ∃ st, st ∈ s.required ∧ sv = s.serviceID ∧ vv = s.serviceVersion ∧
        s.apiClient.CreateSecretStore st.name = Except.ok ⟨rid, nm⟩ ∧
        Event.callCreateStore st.name ∈ pre ∧
        ∀ it ∈ st.items, Event.callCreateSecret rid it.name it.secret ∈ pre ∧
          s.apiClient.CreateSecret rid it.name it.secret = Except.ok ())
  ∧ (∀ (s : SecretStores) (pre suf : List Event) (a n v : String),
      (SecretStores.Create s).1 = pre ++ Event.callCreateSecret a n v :: suf →
      ∃ st, st ∈ s.required ∧ Event.callCreateStore st.name ∈ pre ∧
        ∃ meta, s.apiClient.CreateSecretStore st.name = Except.ok meta ∧
          a = meta.ID) := by
  refine ⟨?_, ?_, ?_⟩
  · intro s h
    cases hp : s.progress with
    | none => simp [SecretStores.Create, hp] at h
    | some u =>
      simp only [SecretStores.Create, hp] at h ⊢
      exact (createStores_ok _ _ _ _ h).1
  · intro s pre suf sv vv nm rid h
    cases hp : s.progress with
    | none =>
      simp only [SecretStores.Create, hp] at h
      exact absurd h.symm (List.append_ne_nil_of_right_ne_nil pre (by simp))
    | some u =>
      simp only [SecretStores.Create, hp] at h
      exact createStores_split _ _ _ s.required pre suf sv vv nm rid h
  · intro s pre suf a n v h
    cases hp : s.progress with
    | none =>
      simp only [SecretStores.Create, hp] at h
      exact absurd h.symm (List.append_ne_nil_of_right_ne_nil pre (by simp))
    | some u =>
      simp only [SecretStores.Create, hp] at h
      exact createStores_entry_split _ _ _ s.required pre suf a n v h

/-- Witness for claim C2 at the scenario of the spec: one store with one
entry, all remote calls succeeding; the trace equals the linear sequence. -/
theorem claim_C2_witness :
    (SecretStores.Create (SecretStores.Configure sInteractive).2.1).1 =
      storesTrace (SecretStores.Configure sInteractive).2.1.apiClient
        (SecretStores.Configure sInteractive).2.1.serviceID
        (SecretStores.Configure sInteractive).2.1.serviceVersion
        (SecretStores.Configure sInteractive).2.1.required :=
  claim_C2_create_ordering.1 (SecretStores.Configure sInteractive).2.1 rfl

/-- Claim C3: if a remote call issued by Create fails, the progress sink fail
operation is invoked right after it, Create returns the oracle error wrapped
with the context of the failing operation, and no event at all (in particular
no further remote call and no compensating deletion) follows the fail. -/
theorem claim_C3_abort_on_error (s : SecretStores) (call : Event) (inner : String)
    (hmem : call ∈ (SecretStores.Create s).1)
    (herr : callErr s.apiClient call = some inner) :
    ∃ pre, (SecretStores.Create s).1 = pre ++ [call, Event.failStep] ∧
      (SecretStores.Create s).2 =
        Except.error (CreateError.wrapped (wrapCtx call) inner) := by
  cases hp : s.progress with
  | none => simp [SecretStores.Create, hp] at hmem
  | some u =>
    simp only [SecretStores.Create, hp] at hmem ⊢
    cases hr : (createStores s.apiClient s.serviceID s.serviceVersion s.required).2 with
    | ok v =>
      cases v
      obtain ⟨_, hclean⟩ := createStores_ok _ _ _ _ hr
      rw [hclean call hmem] at herr
      cases herr
    | error e =>
      obtain ⟨pre, call', inner', htr, hcall', herr', he, hclean⟩ :=
        createStores_err _ _ _ _ e hr
      rw [htr] at hmem
      rcases List.mem_append.mp hmem with hmem | hmem
      · rw [hclean call hmem] at herr
        cases herr
      · rcases List.mem_cons.mp hmem with rfl | hmem
        · refine ⟨pre, htr, ?_⟩
          rw [he]
          rw [herr] at herr'
          injection herr' with hi
          rw [hi]
        · rcases List.mem_cons.mp hmem with rfl | hmem
          · cases herr
          · simp at hmem

/-- Witness for claim C3: the create secret store call fails on a required
store, so the trace is step, failing call, fail, and the error is wrapped. -/
theorem claim_C3_witness :
    ∃ pre, (SecretStores.Create
        { sTwoAB with apiClient := badStoreApi,
                      required := [⟨"alpha", []⟩, ⟨"beta", []⟩] }).1 =
      pre ++ [Event.callCreateStore "alpha", Event.failStep] ∧
      (SecretStores.Create
        { sTwoAB with apiClient := badStoreApi,
                      required := [⟨"alpha", []⟩, ⟨"beta", []⟩] }).2 =
        Except.error (CreateError.wrapped
          (wrapCtx (Event.callCreateStore "alpha")) "boom") :=
  claim_C3_abort_on_error
    { sTwoAB with apiClient := badStoreApi,
                  required := [⟨"alpha", []⟩, ⟨"beta", []⟩] }
    (Event.callCreateStore "alpha") "boom" (by decide) rfl

/-- Claim C4: calling Create when no Progress sink is attached returns the
bug class RemediationError carrying the remediation hint, and issues zero
remote calls (the trace is empty). -/
theorem claim_C4_no_progress_sink (s : SecretStores) (hp : s.progress = none) :
    SecretStores.Create s = ([], Except.error (CreateError.remediation
      "internal logic error: no text.Progress configured for setup.SecretStores"
      BugRemediation)) := by
  simp [SecretStores.Create, hp]

/-- Witness for claim C4 on a concrete state without a progress sink. -/
theorem claim_C4_witness :
    SecretStores.Create { sInteractive with progress := none } =
      ([], Except.error (CreateError.remediation
        "internal logic error: no text.Progress configured for setup.SecretStores"
        BugRemediation)) :=
  claim_C4_no_progress_sink { sInteractive with progress := none } rfl

/-- Claim C8: Predefined is false exactly on an empty setup mapping and true
on any non empty one, its value is independent of the two mode flags, and in
this embedding it is a pure function of the receiver (no state change). -/
theorem claim_C8_predefined (s : SecretStores) (a n : Bool) :
    (SecretStores.Predefined s = true ↔ s.setup ≠ []) ∧
    SecretStores.Predefined { s with acceptDefaults := a, nonInteractive := n } =
      SecretStores.Predefined s := by
  constructor
  · simp [SecretStores.Predefined, List.length_pos]
  · rfl

/-- Claim C10: a declared resource with an empty entry mapping passes
Configure in every mode, contributing a ProvisionedResource with zero entries,
and its Create issues exactly the two remote calls create resource then
create linkage, with no entry call in between. -/
theorem claim_C10_empty_items (ad ni : Bool) (sid : String) (ver : Int)
    (name desc : String) (stdin : Nat → Except String String) (api : ApiOracle)
    (meta : SecretStoreMeta) (hapi : api.CreateSecretStore name = Except.ok meta) :
    SecretStores.Configure
        ⟨ad, ni, some (), sid, ver, [(name, ⟨desc, []⟩)], stdin, api, []⟩ =
      ([], ⟨ad, ni, some (), sid, ver, [(name, ⟨desc, []⟩)], stdin, api,
        [⟨name, []⟩]⟩, Except.ok ()) ∧
    (SecretStores.Create
        ⟨ad, ni, some (), sid, ver, [(name, ⟨desc, []⟩)], stdin, api,
          [⟨name, []⟩]⟩).1.filter isApiCall =
      [Event.callCreateStore name,
       Event.callCreateLink sid ver meta.Name meta.ID] := by
  constructor
  · simp [SecretStores.Configure, configureStores, configureItems]
  · cases hr : api.CreateResource sid ver meta.Name meta.ID with
    | ok v =>
      simp [SecretStores.Create, createStores, createStore, createItems, hapi, hr,
        isApiCall]
    | error e =>
      simp [SecretStores.Create, createStores, createStore, createItems, hapi, hr,
        isApiCall]

/-- Witness for claim C10 on concrete inputs: a store named tokens with no
entries, the always succeeding client. -/
theorem claim_C10_witness :
    SecretStores.Configure
        ⟨false, true, some (), "svc", 1, [("tokens", ⟨"", []⟩)], ansBlank, okApi, []⟩ =
      ([], ⟨false, true, some (), "svc", 1, [("tokens", ⟨"", []⟩)], ansBlank, okApi,
        [⟨"tokens", []⟩]⟩, Except.ok ()) ∧
    (SecretStores.Create
        ⟨false, true, some (), "svc", 1, [("tokens", ⟨"", []⟩)], ansBlank, okApi,
          [⟨"tokens", []⟩]⟩).1.filter isApiCall =
      [Event.callCreateStore "tokens",
       Event.callCreateLink "svc" 1 "tokens" "id-tokens"] :=
  claim_C10_empty_items false true "svc" 1 "tokens" "" ansBlank okApi
    ⟨"id-tokens", "tokens"⟩ rfl

lemma configureItems_blank (stdin : Nat → Except String String) :
    ∀ (items : List (String × SetupSecretStoreItem)) (k i : Nat),
      i < (configureItems stdin true items k).1.length →
      stdin (k + i) = Except.ok "" →
      (configureItems stdin true items k).2.2 = Except.error ConfigError.blankValue
  | [], k, i => by simp [configureItems]
  | (key, it) :: rest, k, i => by
    intro hlen hblank
    cases hs : stdin k with
    | error e =>
      simp only [configureItems, hs, if_true] at hlen
      have hi0 : i = 0 := by simp at hlen; omega
      subst hi0
      rw [Nat.add_zero, hs] at hblank
      cases hblank
    | ok v =>
      by_cases hv : v = ""
      · subst hv
        simp [configureItems, hs]
      · simp only [configureItems, hs, if_true, if_neg hv] at hlen ⊢
        cases i with
        | zero =>
          rw [Nat.add_zero, hs] at hblank
          injection hblank with hb
          exact absurd hb hv
        | succ i' =>
          have hlen' : i' < (configureItems stdin true rest (k + 1)).1.length := by
            simp at hlen; omega
          have hblank' : stdin ((k + 1) + i') = Except.ok "" := by
            have harith : k + (i' + 1) = (k + 1) + i' := by omega
            rw [← harith]; exact hblank
          exact configureItems_blank stdin rest (k + 1) i' hlen' hblank'

lemma configureItems_prompt_err (stdin : Nat → Except String String) :
    ∀ (items : List (String × SetupSecretStoreItem)) (k i : Nat) (m : String),
      i < (configureItems stdin true items k).1.length →
      stdin (k + i) = Except.error m →
      (configureItems stdin true items k).2.2 =
          Except.error (ConfigError.promptRead m) ∧
        (configureItems stdin true items k).1.length = i + 1
  | [], k, i, m => by simp [configureItems]
  | (key, it) :: rest, k, i, m => by
    intro hlen herr
    cases hs : stdin k with
    | error e =>
      simp only [configureItems, hs, if_true] at hlen ⊢
      have hi0 : i = 0 := by simp at hlen; omega
      subst hi0
      rw [Nat.add_zero, hs] at herr
      injection herr with he
      subst he
      exact ⟨rfl, by simp⟩
    | ok v =>
      by_cases hv : v = ""
      · subst hv
        simp only [configureItems, hs, if_true, if_pos rfl] at hlen ⊢
        have hi0 : i = 0 := by simp at hlen; omega
        subst hi0
        rw [Nat.add_zero, hs] at herr
        cases herr
      · simp only [configureItems, hs, if_true, if_neg hv] at hlen ⊢
        cases i with
        | zero =>
          rw [Nat.add_zero, hs] at herr
          cases herr
        | succ i' =>
          have hlen' : i' < (configureItems stdin true rest (k + 1)).1.length := by
            simp at hlen; omega
          have herr' : stdin ((k + 1) + i') = Except.error m := by
            have harith : k + (i' + 1) = (k + 1) + i' := by omega
            rw [← harith]; exact herr
          obtain ⟨h1, h2⟩ := configureItems_prompt_err stdin rest (k + 1) i' m hlen' herr'
          exact ⟨h1, by simp [h2]⟩

lemma configureItems_verbatim (stdin : Nat → Except String String) :
    ∀ (items : List (String × SetupSecretStoreItem)) (k : Nat),
      (configureItems stdin true items k).2.2 = Except.ok () →
      ∀ it ∈ (configureItems stdin true items k).2.1,
        ∃ i, stdin (k + i) = Except.ok it.secret ∧
          (configureItems stdin true items k).1[i]? = some it.name
  | [], k => by simp [configureItems]
  | (key, itm) :: rest, k => by
    intro hok it hmem
    cases hs : stdin k with
    | error e => simp [configureItems, hs] at hok
    | ok v =>
      by_cases hv : v = ""
      · subst hv
        simp [configureItems, hs] at hok
      · simp only [configureItems, hs, if_true, if_neg hv] at hok hmem ⊢
        rcases List.mem_cons.mp hmem with rfl | hmem
        · exact ⟨0, by rw [Nat.add_zero]; exact hs, by simp⟩
        · obtain ⟨i', h1, h2⟩ :=
            configureItems_verbatim stdin rest (k + 1) hok it hmem
          refine ⟨i' + 1, ?_, by simpa using h2⟩
          have harith : k + (i' + 1) = (k + 1) + i' := by omega
          rw [harith]; exact h1

lemma configureItems_no_blank (stdin : Nat → Except String String) (b : Bool) :
    ∀ (items : List (String × SetupSecretStoreItem)) (k : Nat),
      ∀ it ∈ (configureItems stdin b items k).2.1, it.secret ≠ ""
  | [], k => by simp [configureItems]
  | (key, itm) :: rest, k => by
    intro it hmem
    cases b with
    | false => simp [configureItems] at hmem
    | true =>
      cases hs : stdin k with
      | error e => simp [configureItems, hs] at hmem
      | ok v =>
        by_cases hv : v = ""
        · subst hv
          simp [configureItems, hs] at hmem
        · simp only [configureItems, hs, if_true, if_neg hv] at hmem
          rcases List.mem_cons.mp hmem with rfl | hmem
          · exact hv
          · exact configureItems_no_blank stdin true rest (k + 1) it hmem

lemma configureStores_names (stdin : Nat → Except String String) (b : Bool) :
    ∀ (setup : List (String × SetupSecretStore)) (k : Nat),
      (configureStores stdin b setup k).2.2 = Except.ok () →
      (configureStores stdin b setup k).2.1.map SecretStore.name = setup.map Prod.fst
  | [], k => by simp [configureStores]
  | (name, settings) :: rest, k => by
    intro hok
    cases hci : configureItems stdin b settings.items k with
    | mk ps1 rest1 =>
      cases rest1 with
      | mk items1 r1 =>
        cases r1 with
        | error e => simp [configureStores, hci] at hok
        | ok u =>
          cases u
          simp only [configureStores, hci] at hok ⊢
          simp [configureStores_names stdin b rest (k + ps1.length) hok]

lemma configureStores_blank (stdin : Nat → Except String String) :
    ∀ (setup : List (String × SetupSecretStore)) (k i : Nat),
      i < (configureStores stdin true setup k).1.length →
      stdin (k + i) = Except.ok "" →
      (configureStores stdin true setup k).2.2 = Except.error ConfigError.blankValue
  | [], k, i => by simp [configureStores]
  | (name, settings) :: rest, k, i => by
    intro hlen hblank
    cases hci : configureItems stdin true settings.items k with
    | mk ps1 rest1 =>
      cases rest1 with
      | mk items1 r1 =>
        cases r1 with
        | error e =>
          simp only [configureStores, hci] at hlen ⊢
          have hres := configureItems_blank stdin settings.items k i
            (by rw [hci]; exact hlen) hblank
          rw [hci] at hres
          exact hres
        | ok u =>
          cases u
          simp only [configureStores, hci] at hlen ⊢
          by_cases hcase : i < ps1.length
          · have hcontra := configureItems_blank stdin settings.items k i
              (by rw [hci]; exact hcase) hblank
            rw [hci] at hcontra
            simp at hcontra
          · have hlen2 : i - ps1.length <
                (configureStores stdin true rest (k + ps1.length)).1.length := by
              simp only [List.length_append] at hlen
              omega
            have hblank2 : stdin ((k + ps1.length) + (i - ps1.length)) = Except.ok "" := by
              have harith : (k + ps1.length) + (i - ps1.length) = k + i := by omega
              rw [harith]; exact hblank
            exact configureStores_blank stdin rest (k + ps1.length) (i - ps1.length)
              hlen2 hblank2

lemma configureStores_prompt_err (stdin : Nat → Except String String) :
    ∀ (setup : List (String × SetupSecretStore)) (k i : Nat) (m : String),
      i < (configureStores stdin true setup k).1.length →
      stdin (k + i) = Except.error m →
      (configureStores stdin true setup k).2.2 =
          Except.error (ConfigError.promptRead m) ∧
        (configureStores stdin true setup k).1.length = i + 1
  | [], k, i, m => by simp [configureStores]
  | (name, settings) :: rest, k, i, m => by
    intro hlen herr
    cases hci : configureItems stdin true settings.items k with
    | mk ps1 rest1 =>
      cases rest1 with
      | mk items1 r1 =>
        cases r1 with
        | error e =>
          simp only [configureStores, hci] at hlen ⊢
          obtain ⟨h1, h2⟩ := configureItems_prompt_err stdin settings.items k i m
            (by rw [hci]; exact hlen) herr
          rw [hci] at h1 h2
          exact ⟨h1, h2⟩
        | ok u =>
          cases u
          simp only [configureStores, hci] at hlen ⊢
          by_cases hcase : i < ps1.length
          · obtain ⟨h1, h2⟩ := configureItems_prompt_err stdin settings.items k i m
              (by rw [hci]; exact hcase) herr
            rw [hci] at h1
            simp at h1
          · have hlen2 : i - ps1.length <
                (configureStores stdin true rest (k + ps1.length)).1.length := by
              simp only [List.length_append] at hlen
              omega
            have herr2 : stdin ((k + ps1.length) + (i - ps1.length)) = Except.error m := by
              have harith : (k + ps1.length) + (i - ps1.length) = k + i := by omega
              rw [harith]; exact herr
            obtain ⟨h1, h2⟩ := configureStores_prompt_err stdin rest (k + ps1.length)
              (i - ps1.length) m hlen2 herr2
            refine ⟨h1, ?_⟩
            simp only [List.length_append, h2]
            omega

lemma configureStores_verbatim (stdin : Nat → Except String String) :
    ∀ (setup : List (String × SetupSecretStore)) (k : Nat),
      (configureStores stdin true setup k).2.2 = Except.ok () →
      ∀ st ∈ (configureStores stdin true setup k).2.1, ∀ it ∈ st.items,
        ∃ i, stdin (k + i) = Except.ok it.secret ∧
          (configureStores stdin true setup k).1[i]? = some it.name
  | [], k => by simp [configureStores]
  | (name, settings) :: rest, k => by
    intro hok st hst it hit
    cases hci : configureItems stdin true settings.items k with
    | mk ps1 rest1 =>
      cases rest1 with
      | mk items1 r1 =>
        cases r1 with
        | error e => simp [configureStores, hci] at hok
        | ok u =>
          cases u
          simp only [configureStores, hci] at hok hst ⊢
          rcases List.mem_cons.mp hst with rfl | hst
          · obtain ⟨i, h1, h2⟩ := configureItems_verbatim stdin settings.items k
              (by rw [hci]) it (by rw [hci]; exact hit)
            rw [hci] at h2
            have hilt : i < ps1.length := by
              by_contra hge
              rw [List.getElem?_eq_none (Nat.le_of_not_lt hge)] at h2
              cases h2
            exact ⟨i, h1, by rw [List.getElem?_append_left hilt]; exact h2⟩
          · obtain ⟨j, h1, h2⟩ := configureStores_verbatim stdin rest (k + ps1.length)
              hok st hst it hit
            refine ⟨ps1.length + j, ?_, ?_⟩
            · have harith : k + (ps1.length + j) = (k + ps1.length) + j := by omega
              rw [harith]; exact h1
            · rw [List.getElem?_append_right (Nat.le_add_right ps1.length j)]
              simpa [Nat.add_sub_cancel_left] using h2

lemma configureStores_no_blank (stdin : Nat → Except String String) (b : Bool) :
    ∀ (setup : List (String × SetupSecretStore)) (k : Nat),
      ∀ st ∈ (configureStores stdin b setup k).2.1, ∀ it ∈ st.items, it.secret ≠ ""
  | [], k => by simp [configureStores]
  | (name, settings) :: rest, k => by
    intro st hst it hit
    cases hci : configureItems stdin b settings.items k with
    | mk ps1 rest1 =>
      cases rest1 with
      | mk items1 r1 =>
        cases r1 with
        | error e => simp [configureStores, hci] at hst
        | ok u =>
          cases u
          simp only [configureStores, hci] at hst
          rcases List.mem_cons.mp hst with rfl | hst
          · have hni := configureItems_no_blank stdin b settings.items k it
            rw [hci] at hni
            exact hni hit
          · exact configureStores_no_blank stdin b rest (k + ps1.length) st hst it hit

lemma configureStores_not_interactive (stdin : Nat → Except String String) :
    ∀ (setup : List (String × SetupSecretStore)) (k : Nat),
      (configureStores stdin false setup k).1 = [] ∧
      (∀ st ∈ (configureStores stdin false setup k).2.1, st.items = []) ∧
      ((configureStores stdin false setup k).2.2 = Except.ok () ↔
        ∀ p ∈ setup, p.2.items = []) ∧
      ((configureStores stdin false setup k).2.2 = Except.ok () ∨
        (configureStores stdin false setup k).2.2 = Except.error ConfigError.blankValue)
  | [], k => by simp [configureStores]
  | (name, settings) :: rest, k => by
    cases hit : settings.items with
    | nil =>
      obtain ⟨ih1, ih2, ih3, ih4⟩ := configureStores_not_interactive stdin rest k
      refine ⟨?_, ?_, ?_, ?_⟩
      · simpa [configureStores, configureItems, hit] using ih1
      · intro st hst
        simp only [configureStores, configureItems, hit] at hst
        rcases List.mem_cons.mp hst with rfl | hst
        · rfl
        · exact ih2 st hst
      · simp only [configureStores, configureItems, hit]
        constructor
        · intro h p hp
          rcases List.mem_cons.mp hp with rfl | hp
          · exact hit
          · exact ih3.mp h p hp
        · intro h
          exact ih3.mpr (fun p hp => h p (List.mem_cons_of_mem _ hp))
      · simpa [configureStores, configureItems, hit] using ih4
    | cons q qs =>
      refine ⟨?_, ?_, ?_, ?_⟩
      · simp [configureStores, configureItems, hit]
      · intro st hst
        simp [configureStores, configureItems, hit] at hst
      · simp only [configureStores, configureItems, hit]
        constructor
        · intro h
          simp at h
        · intro h
          have := h (name, settings) (List.mem_cons_self _ _)
          rw [hit] at this
          cases this
      · simp [configureStores, configureItems, hit]

lemma Configure_eq (s : SecretStores) :
    SecretStores.Configure s =
      ((configureStores s.stdin s.interactive s.setup 0).1,
       { s with required := s.required
           ++ (configureStores s.stdin s.interactive s.setup 0).2.1 },
       (configureStores s.stdin s.interactive s.setup 0).2.2) := by
  rcases hx : configureStores s.stdin s.interactive s.setup 0 with ⟨ps, stores, r⟩
  simp [SecretStores.Configure, hx]

/-- Claim C6: in interactive mode, a prompt that returns the empty string
makes Configure fail with the blank value configuration error, and a prompt
that returns a non empty string has that string stored verbatim: every
provisioned entry value is exactly the string returned by the prompt recorded
at that entry's position. -/
theorem claim_C6_prompt_verbatim :
    (∀ (s : SecretStores) (i : Nat), s.interactive = true →
      i < (SecretStores.Configure s).1.length →
      s.stdin i = Except.ok "" →
      (SecretStores.Configure s).2.2 = Except.error ConfigError.blankValue)
  ∧ (∀ s : SecretStores, s.interactive = true →
      (SecretStores.Configure s).2.2 = Except.ok () → s.required = [] →
      ∀ st ∈ (SecretStores.Configure s).2.1.required, ∀ it ∈ st.items,
        ∃ i, s.stdin i = Except.ok it.secret ∧
          (SecretStores.Configure s).1[i]? = some it.name) := by
  constructor
  · intro s i hint hlen hblank
    simp only [Configure_eq, hint] at hlen ⊢
    exact configureStores_blank s.stdin s.setup 0 i hlen
      (by rw [Nat.zero_add]; exact hblank)
  · intro s hint hok hreq st hst it hit
    simp only [Configure_eq, hint, hreq] at hok hst ⊢
    simp only [List.nil_append] at hst
    obtain ⟨i, h1, h2⟩ := configureStores_verbatim s.stdin s.setup 0 hok st hst it hit
    rw [Nat.zero_add] at h1
    exact ⟨i, h1, h2⟩

/-- Witness for claim C6 at the scenario of the spec: the prompt answers
abc123 and the provisioned entry stores exactly that string. -/
theorem claim_C6_witness :
    ∃ i, sInteractive.stdin i = Except.ok "abc123" ∧
      (SecretStores.Configure sInteractive).1[i]? = some "api-key" :=
  claim_C6_prompt_verbatim.2 sInteractive rfl rfl rfl
    ⟨"tokens", [⟨"api-key", "abc123"⟩]⟩ (by decide) ⟨"api-key", "abc123"⟩ (by decide)

/-- Claim C9: an interactive prompt read failing with an input output error
makes Configure return immediately with that error wrapped as the prompt read
error (context: error reading prompt input), the failing prompt is the last
one issued, and this error is distinct from the blank value error. -/
theorem claim_C9_prompt_read_error (s : SecretStores) (i : Nat) (m : String)
    (hint : s.interactive = true)
    (hlen : i < (SecretStores.Configure s).1.length)
    (herr : s.stdin i = Except.error m) :
    (SecretStores.Configure s).2.2 = Except.error (ConfigError.promptRead m) ∧
    (SecretStores.Configure s).1.length = i + 1 ∧
    (ConfigError.promptRead m).message = "error reading prompt input: " ++ m ∧
    ConfigError.promptRead m ≠ ConfigError.blankValue := by
  simp only [Configure_eq, hint] at hlen ⊢
  obtain ⟨h1, h2⟩ := configureStores_prompt_err s.stdin s.setup 0 i m hlen
    (by rw [Nat.zero_add]; exact herr)
  exact ⟨h1, h2, rfl, by simp⟩

/-- Witness for claim C9: the prompt stream is closed, the first read fails,
Configure stops after that one prompt. -/
theorem claim_C9_witness :
    (SecretStores.Configure sClosed).2.2 =
        Except.error (ConfigError.promptRead "stream closed") ∧
      (SecretStores.Configure sClosed).1.length = 0 + 1 ∧
      (ConfigError.promptRead "stream closed").message =
        "error reading prompt input: " ++ "stream closed" ∧
      ConfigError.promptRead "stream closed" ≠ ConfigError.blankValue :=
  claim_C9_prompt_read_error sClosed 0 "stream closed" rfl (by decide) rfl

/-- Claim C5: in accept defaults or non interactive mode, with entries
declared and no literal value configured for them, Configure fails with the
blank value error before prompting or provisioning any entry; and in either
mode a blank value is never accepted into a provisioned resource. -/
theorem claim_C5_mode_requires_value :
    (∀ s : SecretStores,
      (s.acceptDefaults = true ∨ s.nonInteractive = true) →
      (∀ p ∈ s.setup, ∀ q ∈ p.2.items, q.2.value = none) →
      (∃ p ∈ s.setup, p.2.items ≠ []) →
      (SecretStores.Configure s).2.2 = Except.error ConfigError.blankValue ∧
        (SecretStores.Configure s).1 = [] ∧
        ∀ st ∈ (SecretStores.Configure s).2.1.required,
          st ∈ s.required ∨ st.items = [])
  ∧ (∀ s : SecretStores, ∀ st ∈ (SecretStores.Configure s).2.1.required,
      st ∈ s.required ∨ ∀ it ∈ st.items, it.secret ≠ "") := by
  constructor
  · intro s hmode _hnoval hentry
    have hfalse : s.interactive = false := by
      rcases hmode with h | h <;> simp [SecretStores.interactive, h]
    simp only [Configure_eq, hfalse]
    obtain ⟨h1, h2, h3, h4⟩ := configureStores_not_interactive s.stdin s.setup 0
    refine ⟨?_, h1, ?_⟩
    · rcases h4 with h4 | h4
      · obtain ⟨p, hp, hne⟩ := hentry
        exact absurd (h3.mp h4 p hp) hne
      · exact h4
    · intro st hst
      rcases List.mem_append.mp hst with hst | hst
      · exact Or.inl hst
      · exact Or.inr (h2 st hst)
  · intro s st hst
    simp only [Configure_eq] at hst
    rcases List.mem_append.mp hst with hst | hst
    · exact Or.inl hst
    · exact Or.inr (configureStores_no_blank s.stdin s.interactive s.setup 0 st hst)

/-- Witness for claim C5 at the scenario of the spec: non interactive mode,
one entry without a configured value, Configure fails with the blank error. -/
theorem claim_C5_witness :
    (SecretStores.Configure sNoDefault).2.2 = Except.error ConfigError.blankValue ∧
      (SecretStores.Configure sNoDefault).1 = [] ∧
      ∀ st ∈ (SecretStores.Configure sNoDefault).2.1.required,
        st ∈ sNoDefault.required ∨ st.items = [] :=
  claim_C5_mode_requires_value.1 sNoDefault (Or.inr rfl) (by decide) (by decide)

/-- Counterexample to claim C1 as stated: in non interactive mode, for an
entry carrying a configured literal value, Configure does not resolve the
entry to that value; the source never reads a configured value, the resolved
value stays empty and Configure fails with the blank value error. -/
theorem claim_C1_counterexample :
    sDefaulted.nonInteractive = true ∧
    (∃ p ∈ sDefaulted.setup, ∃ q ∈ p.2.items, q.2.value = some "s3cret") ∧
    (SecretStores.Configure sDefaulted).2.2 = Except.error ConfigError.blankValue ∧
    (SecretStores.Configure sDefaulted).2.1.required = [] :=
  ⟨rfl, by decide, rfl, rfl⟩

/-- Claim C1 amended: in non interactive or accept defaults mode Configure
never prompts, and the resolved value is always empty because the code reads
no configuration supplied value (even when one is configured); hence Configure
succeeds exactly when every declared resource has no entries, otherwise it
fails with the blank value error, and only resources with zero entries are
ever appended to the required list. -/
theorem claim_C1_amended (s : SecretStores)
    (hmode : s.acceptDefaults = true ∨ s.nonInteractive = true) :
    (SecretStores.Configure s).1 = [] ∧
    ((SecretStores.Configure s).2.2 = Except.ok () ↔
      ∀ p ∈ s.setup, p.2.items = []) ∧
    ((SecretStores.Configure s).2.2 = Except.ok () ∨
      (SecretStores.Configure s).2.2 = Except.error ConfigError.blankValue) ∧
    ∀ st ∈ (SecretStores.Configure s).2.1.required,
      st ∈ s.required ∨ st.items = [] := by
  have hfalse : s.interactive = false := by
    rcases hmode with h | h <;> simp [SecretStores.interactive, h]
  simp only [Configure_eq, hfalse]
  obtain ⟨h1, h2, h3, h4⟩ := configureStores_not_interactive s.stdin s.setup 0
  refine ⟨h1, h3, h4, ?_⟩
  intro st hst
  rcases List.mem_append.mp hst with hst | hst
  · exact Or.inl hst
  · exact Or.inr (h2 st hst)

/-- Witness for the amended claim C1 at the counterexample state. -/
theorem claim_C1_witness :
    (SecretStores.Configure sDefaulted).1 = [] ∧
    ((SecretStores.Configure sDefaulted).2.2 = Except.ok () ↔
      ∀ p ∈ sDefaulted.setup, p.2.items = []) ∧
    ((SecretStores.Configure sDefaulted).2.2 = Except.ok () ∨
      (SecretStores.Configure sDefaulted).2.2 =
        Except.error ConfigError.blankValue) ∧
    ∀ st ∈ (SecretStores.Configure sDefaulted).2.1.required,
      st ∈ sDefaulted.required ∨ st.items = [] :=
  claim_C1_amended sDefaulted (Or.inr rfl)

lemma createItems_no_storeCreate (api : ApiOracle) (storeID : String) :
    ∀ items : List SecretStoreItem,
      (createItems api storeID items).1.filter isStoreCreate = []
  | [] => by simp [createItems]
  | it :: rest => by
    cases hc : api.CreateSecret storeID it.name it.secret with
    | error e => simp [createItems, hc, isStoreCreate]
    | ok v =>
      simp only [createItems, hc, List.filter_append]
      rw [createItems_no_storeCreate api storeID rest]
      simp [isStoreCreate]

lemma createStore_storeCalls (api : ApiOracle) (sid : String) (ver : Int)
    (st : SecretStore) :
    (createStore api sid ver st).1.filter isStoreCreate =
      [Event.callCreateStore st.name] := by
  cases hs : api.CreateSecretStore st.name with
  | error e => simp [createStore, hs, isStoreCreate]
  | ok meta =>
    cases hi : createItems api meta.ID st.items with
    | mk tri ri =>
      have hfi := createItems_no_storeCreate api meta.ID st.items
      rw [hi] at hfi
      simp only at hfi
      cases ri with
      | error e => simp [createStore, hs, hi, isStoreCreate, hfi]
      | ok u =>
        cases u
        cases hr : api.CreateResource sid ver meta.Name meta.ID with
        | error e => simp [createStore, hs, hi, hr, isStoreCreate, hfi]
        | ok v => simp [createStore, hs, hi, hr, isStoreCreate, hfi]

lemma createStores_storeCalls (api : ApiOracle) (sid : String) (ver : Int) :
    ∀ req : List SecretStore,
      ∃ kp, kp ≤ req.length ∧
        (createStores api sid ver req).1.filter isStoreCreate =
          (req.map (fun st => Event.callCreateStore st.name)).take kp
  | [] => ⟨0, by simp, by simp [createStores]⟩
  | st :: rest => by
    cases hc : createStore api sid ver st with
    | mk tr1 r1 =>
      have h1 := createStore_storeCalls api sid ver st
      rw [hc] at h1
      simp only at h1
      cases r1 with
      | error e =>
        refine ⟨1, by simp, ?_⟩
        simp only [createStores, hc]
        simpa using h1
      | ok u =>
        cases u
        obtain ⟨kp, hkp, h2⟩ := createStores_storeCalls api sid ver rest
        refine ⟨kp + 1, by simp; omega, ?_⟩
        simp only [createStores, hc, List.filter_append]
        simp [h1, h2]

/-- Counterexample to claim C7 as stated: the same configuration mapping (the
same key and value pairs, a permutation as an association list) with the same
mode flags, prompt answers, client and starting state, run through Configure
then Create, issues two different remote call sequences when the runtime
iterates the Go map in a different order, so the order is not determined by
the declared configuration. -/
theorem claim_C7_counterexample :
    List.Perm sTwoAB.setup sTwoBA.setup ∧
    sTwoAB.acceptDefaults = sTwoBA.acceptDefaults ∧
    sTwoAB.nonInteractive = sTwoBA.nonInteractive ∧
    sTwoAB.stdin = sTwoBA.stdin ∧
    sTwoAB.apiClient = sTwoBA.apiClient ∧
    sTwoAB.required = sTwoBA.required ∧
    pipelineCalls sTwoAB ≠ pipelineCalls sTwoBA :=
  ⟨by decide, rfl, rfl, rfl, rfl, rfl, by decide⟩

/-- Claim C7 amended: for the map iteration order actually observed in one
run, Configure builds the required list in that order (store names equal the
setup keys in order) and Create issues the store creation calls following the
required list order (the store creation calls in the trace are a prefix of
that list mapped to calls); but the Go map iteration order itself is
unspecified, so the sequence is deterministic only relative to it. -/
theorem claim_C7_amended :
    (∀ s : SecretStores, (SecretStores.Configure s).2.2 = Except.ok () →
      (SecretStores.Configure s).2.1.required.map SecretStore.name =
        s.required.map SecretStore.name ++ s.setup.map Prod.fst)
  ∧ (∀ s : SecretStores, ∃ kp,
      (SecretStores.Create s).1.filter isStoreCreate =
        (s.required.map (fun st => Event.callCreateStore st.name)).take kp) := by
  constructor
  · intro s hok
    simp only [Configure_eq] at hok ⊢
    simp [configureStores_names s.stdin s.interactive s.setup 0 hok]
  · intro s
    cases hp : s.progress with
    | none => exact ⟨0, by simp [SecretStores.Create, hp]⟩
    | some u =>
      obtain ⟨kp, _, h⟩ :=
        createStores_storeCalls s.apiClient s.serviceID s.serviceVersion s.required
      exact ⟨kp, by simp only [SecretStores.Create, hp]; exact h⟩

/-- Witness for the amended claim C7 on a concrete two store setup. -/
theorem claim_C7_witness :
    (SecretStores.Configure sTwoAB).2.1.required.map SecretStore.name =
      sTwoAB.required.map SecretStore.name ++ sTwoAB.setup.map Prod.fst :=
  claim_C7_amended.1 sTwoAB rfl
